import Mathlib

/-!
# Verification of the PokerGPT `llmpoker-assistant` decision core

A shallow embedding, in Lean 4, of the four-part decision pipeline of the
`llmpoker-assistant` source tree:

* `src/utils/card_utils.py` — card and hand normalization;
* `src/gto/hand_evaluator.py` — hand-strength and board-texture buckets;
* `src/gto/strategy_cache.py` — the GTO policy-cache lookup;
* `src/vision/confidence_validator.py` — temporal confidence validation;
* `src/state/state_manager.py` — episode (new-hand) boundary detection;
* `src/llm/orchestrator.py` — the provider fallback orchestrator;
* `src/vision/fastvlm_inference.py` (`_validate_game_state`) — confidence
  defaulting on raw perception payloads.

Python floats appearing in these modules are modelled as exact rationals
(`ℚ`); Python lists as `List`, dicts as association lists, `None`-able
values as `Option`.  External collaborators (the vision model, the LLM
provider processes, the pickle files on disk) appear only through their
values: a provider is an availability flag together with the structured
result (or failure) its call yields, and a loaded cache is the pair of
in-memory tables.

Mathlib marks `Rat.add`, `Rat.mul`, `Rat.inv` and `Rat.sub` irreducible, so
concrete runs of the embedded functions could not be checked by `decide` if
the embedding used them directly.  The definitions below therefore compute
with kernel-reducible counterparts `qadd`, `qmul`, `qdiv`, `qsub`, `qsum`,
each proved equal to the corresponding `ℚ` operation, and the theorems are
stated with the ordinary operations.
-/

/-- Kernel-computable addition on `ℚ`, equal to `+` by `qadd_eq`. -/
def qadd (a b : ℚ) : ℚ := mkRat (a.num * b.den + b.num * a.den) (a.den * b.den)

/-- Kernel-computable multiplication on `ℚ`, equal to `*` by `qmul_eq`. -/
def qmul (a b : ℚ) : ℚ := mkRat (a.num * b.num) (a.den * b.den)

/-- Kernel-computable inverse on `ℚ` (`0` maps to `0`, as in Mathlib). -/
def qinv (a : ℚ) : ℚ :=
  if a.num < 0 then mkRat (-(a.den : Int)) a.num.natAbs
  else mkRat (a.den : Int) a.num.natAbs

/-- Kernel-computable division on `ℚ`, equal to `/` by `qdiv_eq`. -/
def qdiv (a b : ℚ) : ℚ := qmul a (qinv b)

/-- Kernel-computable subtraction on `ℚ`, equal to `-` by `qsub_eq`. -/
def qsub (a b : ℚ) : ℚ := mkRat (a.num * b.den - b.num * a.den) (a.den * b.den)

/-- Kernel-computable sum of a list of rationals, equal to `List.sum`. -/
def qsum : List ℚ → ℚ
  | [] => 0
  | x :: xs => qadd x (qsum xs)

/-- First character of a string (`c[0]` in the source, which only ever
applies it to non-empty card strings; `' '` is an arbitrary default that no
source input reaches). -/
def charAt0 (s : String) : Char := s.toList.headD ' '

/-- Second character of a string (`c[1]` in the source, applied only to
two-character card strings). -/
def charAt1 (s : String) : Char := (s.toList.drop 1).headD ' '

/-! ## `src/utils/card_utils.py` -/

/-- Card ranks, as in `card_utils.RANKS`. -/
def RANKS : List Char := ['A', 'K', 'Q', 'J', 'T', '9', '8', '7', '6', '5', '4', '3', '2']

/-- Card suits, as in `card_utils.SUITS`. -/
def SUITS : List Char := ['s', 'h', 'd', 'c']

/-- Rank order, as in `card_utils.RANK_MAP` (a dict keyed exactly by `RANKS`;
the 0 default is unreachable on the keys the source uses). -/
def RANK_MAP (r : Char) : Nat :=
  if r = 'A' then 14 else if r = 'K' then 13 else if r = 'Q' then 12
  else if r = 'J' then 11 else if r = 'T' then 10 else if r = '9' then 9
  else if r = '8' then 8 else if r = '7' then 7 else if r = '6' then 6
  else if r = '5' then 5 else if r = '4' then 4 else if r = '3' then 3
  else if r = '2' then 2 else 0

/-- `card_utils.normalize_card`: uppercase the rank, lowercase the suit,
`none` unless the result is a valid two-character card. -/
def normalize_card (card : String) : Option String :=
  match card.toList with
  | [c0, c1] =>
    let rank := c0.toUpper
    let suit := c1.toLower
    if RANKS.contains rank && SUITS.contains suit then some (String.mk [rank, suit])
    else none
  | _ => none

/-- `card_utils.normalize_hand`: canonical hand-class key of two hole cards
(higher rank first; `"AA"` for pairs, `"AKs"` suited, `"AKo"` offsuit),
`none` when the list is not two valid cards. -/
def normalize_hand (cards : List String) : Option String :=
  match cards with
  | [a, b] =>
    match normalize_card a, normalize_card b with
    | some card1, some card2 =>
      match card1.toList, card2.toList with
      | [r1, s1], [r2, s2] =>
        let p := if RANK_MAP r1 < RANK_MAP r2 then ((r2, s2), (r1, s1)) else ((r1, s1), (r2, s2))
        let rank1 := p.1.1
        let suit1 := p.1.2
        let rank2 := p.2.1
        let suit2 := p.2.2
        if rank1 = rank2 then some (String.mk [rank1, rank2])
        else if suit1 = suit2 then some (String.mk [rank1, rank2, 's'])
        else some (String.mk [rank1, rank2, 'o'])
      | _, _ => none
    | _, _ => none
  | _ => none

/-! ## `src/gto/hand_evaluator.py`

The treys-based branch of `calculate_hand_strength` calls the external
`treys` library (an out-of-scope collaborator); the source falls back to
`_calculate_hand_strength_simple` when that library is absent, and that
pure fallback is what is embedded here.  Which bucket values come out does
not affect any claim: the cache lookup treats the bucket triple opaquely. -/

/-- The rank values used by `hand_evaluator._has_straight_potential`
(`A K Q J T` plus `'2'..'9'`; other characters are filtered out). -/
def straight_rank_map (r : Char) : Option Nat :=
  if r = 'A' then some 14 else if r = 'K' then some 13 else if r = 'Q' then some 12
  else if r = 'J' then some 11 else if r = 'T' then some 10
  else if r = '9' then some 9 else if r = '8' then some 8 else if r = '7' then some 7
  else if r = '6' then some 6 else if r = '5' then some 5 else if r = '4' then some 4
  else if r = '3' then some 3 else if r = '2' then some 2 else none

/-- Insert into a descending-sorted list (used to model Python's
`sorted(..., reverse=True)`). -/
def insert_desc (x : Nat) : List Nat → List Nat
  | [] => [x]
  | y :: ys => if y < x then x :: y :: ys else y :: insert_desc x ys

/-- Descending sort of a list of naturals. -/
def sort_desc (l : List Nat) : List Nat := l.foldr insert_desc []

/-- The sliding-window scan of `_has_straight_potential`: three consecutive
entries of the descending list with both gaps at most 2. -/
def windows_consec : List Nat → Bool
  | a :: b :: c :: rest => (a - b ≤ 2 && b - c ≤ 2) || windows_consec (b :: c :: rest)
  | _ => false

/-- `hand_evaluator._has_straight_potential`. -/
def has_straight_potential (ranks : List Char) : Bool :=
  let rank_nums := sort_desc (ranks.filterMap straight_rank_map)
  if rank_nums.length < 3 then false
  else windows_consec rank_nums

/-- `hand_evaluator._calculate_hand_strength_simple` (the pure fallback the
source uses when the external `treys` library is unavailable). -/
def calculate_hand_strength_simple (hole_cards board : List String) : String :=
  if hole_cards.isEmpty || board.isEmpty then "MEDIUM"
  else
    let hole_ranks := hole_cards.map charAt0
    let board_ranks := board.map charAt0
    let all_ranks := hole_ranks ++ board_ranks
    let counts := (all_ranks.eraseDups).map (fun r => all_ranks.count r)
    let max_count := counts.foldl max 0
    if 4 ≤ max_count then "NUTS"
    else if max_count = 3 then
      if 2 ≤ (counts.filter (fun c => 2 ≤ c)).length then "NUTS" else "STRONG"
    else if max_count = 2 then
      let pairs := (all_ranks.eraseDups).filter (fun r => all_ranks.count r = 2)
      if 2 ≤ pairs.length then "STRONG" else "MEDIUM"
    else
      if hole_ranks.any (fun r => r = 'A' || r = 'K' || r = 'Q') then "MEDIUM" else "WEAK"

/-- `hand_evaluator.calculate_hand_strength`, in the environment without the
external `treys` library (its only pure branch). -/
def calculate_hand_strength (hole_cards board : List String) : String :=
  calculate_hand_strength_simple hole_cards board

/-- `hand_evaluator.classify_board_texture`: paired boards first, then
flush-prone, then straight-prone, else dry. -/
def classify_board_texture (board : List String) : String :=
  if board.length < 3 then "DRY"
  else
    let suits := board.map charAt1
    let ranks := board.map charAt0
    let suit_counts := (suits.eraseDups).map (fun s => suits.count s)
    let rank_counts := (ranks.eraseDups).map (fun r => ranks.count r)
    if 2 ≤ rank_counts.foldl max 0 then "PAIRED"
    else if 3 ≤ suit_counts.foldl max 0 then "WET"
    else if has_straight_potential ranks then "COORDINATED"
    else "DRY"

/-! ## `src/gto/strategy_cache.py`

A baseline-action dict (`{"action": ..., "sizing": ..., "confidence": ...}`)
is modelled as a record of optional fields, matching the `.get` accesses the
source performs on it; `GTOStrategyCache.preflop_ranges` and
`.postflop_buckets` are the two pickled tables, modelled as association
lists (`load_from_disk` itself is disk I/O and is out of the embedding:
the cache is quantified over its loaded contents and `loaded` flag). -/

/-- A baseline recommendation dict as the strategy cache and the
orchestrator pass it around: every key optional, read via `.get`. -/
structure GtoDict where
  action : Option String
  sizing : Option ℚ
  confidence : Option ℚ
deriving DecidableEq, Repr

/-- The in-memory GTO strategy cache (`GTOStrategyCache.__init__` state
after a load): position → (hand-class → action) for preflop, and
(strength, texture, SPR-bucket) → action for postflop. -/
structure GTOStrategyCache where
  preflop_ranges : List (String × List (String × GtoDict))
  postflop_buckets : List ((String × String × String) × GtoDict)
  loaded : Bool
deriving DecidableEq, Repr

/-- `GTOStrategyCache._default_action`. -/
def GTOStrategyCache.default_action (_c : GTOStrategyCache) : GtoDict :=
  { action := some "CHECK", sizing := some 0, confidence := some (mkRat 1 2) }

/-- `GTOStrategyCache._get_preflop_action`. -/
def GTOStrategyCache.get_preflop_action (c : GTOStrategyCache)
    (position : String) (hole_cards : List String) : GtoDict :=
  match normalize_hand hole_cards with
  | none => c.default_action
  | some hand_key =>
    let position_ranges := (c.preflop_ranges.lookup position).getD []
    match position_ranges.lookup hand_key with
    | some action_data => { action_data with confidence := some (mkRat 17 20) }
    | none => { action := some "FOLD", sizing := some 0, confidence := some (mkRat 9 10) }

/-- `GTOStrategyCache._bucket_spr`. -/
def bucket_spr (spr : ℚ) : String :=
  if 10 < spr then "DEEP"
  else if 3 < spr then "MEDIUM"
  else "SHALLOW"

/-- `GTOStrategyCache._get_postflop_action` (the `position` argument is
unused in the source as well). -/
def GTOStrategyCache.get_postflop_action (c : GTOStrategyCache)
    (_position : String) (hole_cards board : List String) (pot stack : ℚ) : GtoDict :=
  let hand_strength := calculate_hand_strength hole_cards board
  let board_texture := classify_board_texture board
  let spr := if 0 < pot then qdiv stack pot else 100
  let spr_bucket := bucket_spr spr
  let bucket_key := (hand_strength, board_texture, spr_bucket)
  match c.postflop_buckets.lookup bucket_key with
  | some action_data => { action_data with confidence := some (mkRat 3 4) }
  | none => { action := some "CHECK", sizing := some 0, confidence := some (mkRat 3 5) }

/-- `GTOStrategyCache.get_action`. -/
def GTOStrategyCache.get_action (c : GTOStrategyCache) (position : String)
    (hole_cards board : List String) (pot stack : ℚ) : GtoDict :=
  if ¬ c.loaded then c.default_action
  else if board.isEmpty then c.get_preflop_action position hole_cards
  else c.get_postflop_action position hole_cards board pot stack

/-! ## `src/vision/confidence_validator.py`

A raw vision observation (`game_state` dict) carries field values plus a
per-field confidence dict whose values may be non-numeric (the source
filters with `isinstance(v, (int, float))`); a confidence entry is
therefore `String × Option ℚ`, `none` standing for a non-numeric value. -/

/-- A raw observation as the vision stage hands it to the validator and the
state manager. -/
structure Obs where
  hole_cards : List String
  board : List String
  pot : ℚ
  your_stack : ℚ
  position : String
  action_on_you : Bool
  confidence : List (String × Option ℚ)
deriving DecidableEq, Repr

/-- Python `set(a) == set(b)` on lists of strings. -/
def sameSet (a b : List String) : Bool :=
  a.all (fun x => b.contains x) && b.all (fun x => a.contains x)

/-- The validator's mutable state (`__init__`). -/
structure ConfidenceValidator where
  buffer_size : Nat
  threshold : ℚ
  state_buffer : List Obs
deriving DecidableEq, Repr

/-- The source's constructor default `buffer_size=3`. -/
def default_buffer_size : Nat := 3

/-- The source's constructor default `threshold=0.70`. -/
def default_threshold : ℚ := mkRat 7 10

/-- A fresh validator (`ConfidenceValidator(buffer_size, threshold)`). -/
def ConfidenceValidator.init (buffer_size : Nat) (threshold : ℚ) : ConfidenceValidator :=
  { buffer_size := buffer_size, threshold := threshold, state_buffer := [] }

/-- `ConfidenceValidator._aggregate_confidence`: mean of the numeric
confidence values, `0.0` when there are none. -/
def ConfidenceValidator.aggregate_confidence (state : Obs) : ℚ :=
  let confidences := state.confidence
  if confidences.isEmpty then 0
  else
    let scores := confidences.filterMap (fun v => v.2)
    if scores.isEmpty then 0
    else qdiv (qsum scores) (scores.length : ℚ)

/-- `ConfidenceValidator._check_hole_cards_consistency`. -/
def ConfidenceValidator.check_hole_cards_consistency (current previous : Obs) : ℚ :=
  if current.hole_cards.isEmpty || previous.hole_cards.isEmpty then mkRat 1 2
  else if ¬ sameSet current.hole_cards previous.hole_cards then mkRat 3 10
  else 1

/-- The element-wise scan of `_check_board_consistency`'s growth branch:
`previous` must reappear, in order, as the first entries of `current`. -/
def board_prefix_check : List String → List String → Bool
  | [], _ => true
  | _ :: _, [] => false
  | p :: ps, c :: cs => p = c && board_prefix_check ps cs

/-- `ConfidenceValidator._check_board_consistency`. -/
def ConfidenceValidator.check_board_consistency (current previous : Obs) : ℚ :=
  let current_board := current.board
  let previous_board := previous.board
  if current_board.isEmpty && previous_board.isEmpty then 1
  else if previous_board.length < current_board.length then
    if board_prefix_check previous_board current_board then 1 else mkRat 3 10
  else if current_board.length = previous_board.length then
    if current_board = previous_board then 1 else mkRat 3 10
  else mkRat 1 2

/-- `ConfidenceValidator._check_pot_consistency`. -/
def ConfidenceValidator.check_pot_consistency (current previous : Obs) : ℚ :=
  if current.pot = 0 ∧ previous.pot = 0 then 1
  else if previous.pot < current.pot then 1
  else if current.pot = previous.pot then 1
  else mkRat 1 2

/-- `ConfidenceValidator._check_consistency`: mean of the three checks on
the last two buffered frames, `1.0` with fewer than two frames. -/
def ConfidenceValidator.check_consistency (buf : List Obs) : ℚ :=
  match buf.reverse with
  | current :: previous :: _ =>
    qdiv (qadd (ConfidenceValidator.check_hole_cards_consistency current previous)
      (qadd (ConfidenceValidator.check_board_consistency current previous)
        (ConfidenceValidator.check_pot_consistency current previous))) 3
  | _ => 1

/-- `ConfidenceValidator.validate`: append to the rolling window (evicting
the oldest past `buffer_size`), aggregate the per-field confidences,
penalize by temporal consistency once two frames are buffered, and accept
iff the final confidence reaches the threshold.  Returns the source's
`(is_confident, final_confidence)` pair together with the updated
validator. -/
def ConfidenceValidator.validate (v : ConfidenceValidator) (game_state : Obs) :
    (Bool × ℚ) × ConfidenceValidator :=
  let appended := v.state_buffer ++ [game_state]
  let buffer := if v.buffer_size < appended.length then appended.tail else appended
  let aggregate := ConfidenceValidator.aggregate_confidence game_state
  let final_confidence :=
    if 2 ≤ buffer.length then qmul aggregate (ConfidenceValidator.check_consistency buffer)
    else aggregate
  let is_confident := v.threshold ≤ final_confidence
  ((is_confident, final_confidence), { v with state_buffer := buffer })

/-- `ConfidenceValidator.reset`. -/
def ConfidenceValidator.reset (v : ConfidenceValidator) : ConfidenceValidator :=
  { v with state_buffer := [] }

/-! ## `src/models/data_models.py` and `src/state/state_manager.py`

`GameState(...)` is a pydantic model: construction validates the `position`
string against the `Position` enum and coerces every confidence value to
`float`, raising (caught by `process_vision_output`'s `except`, which then
returns `(False, confidence, None)`) when a value does not fit.  The
conversion is modelled as an `Option`-returning function that is `none`
exactly on those validation failures. -/

/-- The members of the `Position` enum. -/
def position_values : List String := ["BTN", "CO", "MP", "UTG", "SB", "BB", "UNKNOWN"]

/-- The pydantic `GameState` model (with `use_enum_values`, the position is
stored back as its string value). -/
structure GameState where
  hole_cards : List String
  board : List String
  pot : ℚ
  your_stack : ℚ
  position : String
  action_on_you : Bool
  confidence : List (String × ℚ)
deriving DecidableEq, Repr

/-- `GameState(hole_cards=..., board=..., pot=..., ...)` as
`process_vision_output` builds it from a raw observation: `none` when
pydantic validation raises (unknown position, or a non-numeric confidence
value). -/
def mkGameState (vision_data : Obs) : Option GameState :=
  if position_values.contains vision_data.position
      && vision_data.confidence.all (fun v => v.2.isSome) then
    some
      { hole_cards := vision_data.hole_cards
        board := vision_data.board
        pot := vision_data.pot
        your_stack := vision_data.your_stack
        position := vision_data.position
        action_on_you := vision_data.action_on_you
        confidence := vision_data.confidence.filterMap (fun v => v.2.map (fun q => (v.1, q))) }
  else none

/-- `GameStateManager.__init__` state (the session id is an opaque string
generated once per process run). -/
structure GameStateManager where
  validator : ConfidenceValidator
  current_state : Option GameState
  hand_number : Nat
  session_id : String
deriving DecidableEq, Repr

/-- A fresh manager (`GameStateManager(confidence_threshold)`). -/
def GameStateManager.init (confidence_threshold : ℚ) (session_id : String) : GameStateManager :=
  { validator := ConfidenceValidator.init default_buffer_size confidence_threshold
    current_state := none
    hand_number := 0
    session_id := session_id }

/-- `GameStateManager._is_new_hand`. -/
def GameStateManager.is_new_hand (m : GameStateManager) (new_state : GameState) : Bool :=
  match m.current_state with
  | none => true
  | some current_state =>
    if new_state.board.length < current_state.board.length then true
    else if new_state.pot < qmul current_state.pot (mkRat 1 2) then true
    else if (!new_state.hole_cards.isEmpty) && (!current_state.hole_cards.isEmpty)
        && !(sameSet new_state.hole_cards current_state.hole_cards) then true
    else false

/-- `GameStateManager.process_vision_output`: validate, reject early on low
confidence, convert to a `GameState`, bump the hand counter and reset the
validator on a new-hand boundary, and store the new current state.  Returns
the source's `(is_confident, confidence, game_state)` triple together with
the updated manager. -/
def GameStateManager.process_vision_output (m : GameStateManager) (vision_data : Obs) :
    (Bool × ℚ × Option GameState) × GameStateManager :=
  let validated := m.validator.validate vision_data
  let is_confident := validated.1.1
  let confidence := validated.1.2
  let m1 : GameStateManager := { m with validator := validated.2 }
  if ¬ is_confident then ((false, confidence, none), m1)
  else
    match mkGameState vision_data with
    | none => ((false, confidence, none), m1)
    | some game_state =>
      let m2 :=
        if m1.is_new_hand game_state then
          { m1 with hand_number := m1.hand_number + 1, validator := m1.validator.reset }
        else m1
      ((true, confidence, some game_state), { m2 with current_state := some game_state })

/-! ## `src/llm/orchestrator.py` and `src/models/data_models.py` (`Recommendation`)

A provider (Claude CLI subprocess, OpenAI, Gemini) is an external
collaborator: the embedding keeps only what the orchestrator observes of
it — the `is_available()` flag and what its `get_recommendation(prompt)`
call yields.  That is `None` (modelled `none`) on timeout, transport
failure, or when no JSON object can be extracted/parsed from the reply;
otherwise it is the five-key dict the provider's `_parse_response` builds.
Crucially, only `ClaudeCLI._parse_response` checks that an `"action"` key
is present (and even it accepts `"action": null`);
`OpenAIFallback._parse_response` and `GeminiFallback._parse_response`
perform no such check, so any parseable JSON object — `{}` included —
yields a dict whose `action` entry may be `None`.  The orchestrator then
constructs the pydantic `Recommendation` model from that dict with no
surrounding try/except, and pydantic (>= 2.0 per `setup.py`) raises a
`ValidationError` for a `None` action, an out-of-range confidence, or a
baseline dict that does not coerce into `GTOAction` — so
`get_recommendation` is modelled as returning `Except ValidationError
Recommendation`, the `.error` case standing for the raised exception.
The shared prompt string does not influence any orchestrator branch, so
it is not represented. -/

/-- A parsed provider dict, as all three `_parse_response` functions build
it: the five keys are always present; `action` and `amount` hold
`data.get(...)`, which is `None` when the JSON payload omits the key (or
carries `null`); `confidence` is float-coerced with default 0.75;
`reasoning` defaults to `""` and `alternatives` to `[]`.  No parser
validates the `action` VALUE — only `ClaudeCLI._parse_response` rejects a
payload whose `action` key is missing (returning `None` overall), while
the OpenAI and Gemini parsers accept any parseable object. -/
structure ProviderResult where
  action : Option String
  amount : Option ℚ
  confidence : ℚ
  reasoning : String
  alternatives : List (String × ℚ)
deriving DecidableEq, Repr

/-- What the orchestrator observes of one provider: the availability flag
and the parsed dict (or `none` for timeout / transport failure /
unparseable reply). -/
structure Provider where
  is_available : Bool
  result : Option ProviderResult
deriving DecidableEq, Repr

/-- The members of the `data_models.Action` enum. -/
def action_values : List String := ["FOLD", "CHECK", "CALL", "BET", "RAISE", "ALL_IN"]

/-- The pydantic `GTOAction` model as the orchestrator receives it, coerced
from a baseline dict (its optional `range` label is not represented, as no
baseline dict in the embedding carries one). -/
structure GTOAction where
  action : String
  sizing : Option ℚ
  confidence : ℚ
deriving DecidableEq, Repr

/-- The causes of the pydantic `ValidationError`s the orchestrator can
raise while constructing a `Recommendation` (the error's detail payload is
collapsed to its cause, reported for the first failing field in
declaration order). -/
inductive ValidationError where
  | missing_action : ValidationError
  | confidence_out_of_range : ValidationError
  | invalid_gto_baseline : ValidationError
deriving DecidableEq, Repr

/-- Equality on `Except` results is decidable when it is on both
components (used to evaluate concrete orchestrator runs). -/
instance {e a : Type} [DecidableEq e] [DecidableEq a] : DecidableEq (Except e a) :=
  fun x y =>
  match x, y with
  | .error u, .error v =>
    if h : u = v then .isTrue (congrArg Except.error h)
    else .isFalse (fun hx => h (Except.error.inj hx))
  | .ok u, .ok v =>
    if h : u = v then .isTrue (congrArg Except.ok h)
    else .isFalse (fun hx => h (Except.ok.inj hx))
  | .error _, .ok _ => .isFalse (fun hx => Except.noConfusion hx)
  | .ok _, .error _ => .isFalse (fun hx => Except.noConfusion hx)

/-- Pydantic coercion of a baseline dict into `GTOAction`: `action` is a
required member of the `Action` enum, `confidence` (default 0.0) must
satisfy `ge=0.0, le=1.0`, `sizing` is optional. -/
def mkGTOAction (d : GtoDict) : Except ValidationError GTOAction :=
  match d.action with
  | none => .error .invalid_gto_baseline
  | some a =>
    if action_values.contains a then
      if 0 ≤ d.confidence.getD 0 ∧ d.confidence.getD 0 ≤ 1 then
        .ok { action := a, sizing := d.sizing, confidence := d.confidence.getD 0 }
      else .error .invalid_gto_baseline
    else .error .invalid_gto_baseline

/-- The pydantic `Recommendation` model. -/
structure Recommendation where
  action : String
  amount : Option ℚ
  confidence : ℚ
  reasoning : String
  alternatives : List (String × ℚ)
  gto_baseline : Option GTOAction
  llm_provider : String
  fallback_used : Bool
deriving DecidableEq, Repr

/-- `Recommendation(...)` construction: pydantic validates that `action` is
an actual string (`None` raises, `action: str` being required), that
`confidence` satisfies `ge=0.0, le=1.0`, and coerces a baseline dict into
`GTOAction` (raising when that coercion fails). -/
def mkRecommendation (action : Option String) (amount : Option ℚ) (confidence : ℚ)
    (reasoning : String) (alternatives : List (String × ℚ)) (gto_baseline : Option GtoDict)
    (llm_provider : String) (fallback_used : Bool) : Except ValidationError Recommendation :=
  match action with
  | none => .error .missing_action
  | some a =>
    if 0 ≤ confidence ∧ confidence ≤ 1 then
      match gto_baseline with
      | none =>
        .ok
          { action := a, amount := amount, confidence := confidence,
            reasoning := reasoning, alternatives := alternatives, gto_baseline := none,
            llm_provider := llm_provider, fallback_used := fallback_used }
      | some d =>
        match mkGTOAction d with
        | .error e => .error e
        | .ok g =>
          .ok
            { action := a, amount := amount, confidence := confidence,
              reasoning := reasoning, alternatives := alternatives,
              gto_baseline := some g, llm_provider := llm_provider,
              fallback_used := fallback_used }
    else .error .confidence_out_of_range

/-- Floor of a rational, computed with floored integer division. -/
def qfloor (q : ℚ) : Int := Int.fdiv q.num q.den

/-- Round to the nearest integer, ties to even (the rounding CPython's
`format(x, '.2f')` applies; the source formats a binary `float`, modelled
here as the exact rational). -/
def round_half_even (q : ℚ) : Int :=
  let f := qfloor q
  let frac := qsub q (mkRat f 1)
  if frac < mkRat 1 2 then f
  else if mkRat 1 2 < frac then f + 1
  else if f % 2 = 0 then f else f + 1

/-- The `f"{sizing:.2f}"` formatting of the source's fallback labels. -/
def format_two_decimals (q : ℚ) : String :=
  let cents := round_half_even (qmul q 100)
  let sign := if cents < 0 then "-" else ""
  let n := cents.natAbs
  sign ++ toString (n / 100) ++ "." ++ (if n % 100 < 10 then "0" else "") ++ toString (n % 100)

/-- `LLMOrchestrator._gto_only_recommendation`: the baseline-only fallback
(sentinel provider `"gto_only"`).  It too ends in a `Recommendation(...)`
construction, so it raises (`.error`) when the baseline dict itself fails
pydantic validation. -/
def gto_only_recommendation (gto_baseline : GtoDict) : Except ValidationError Recommendation :=
  let action_str := gto_baseline.action.getD "CHECK"
  let sizing := gto_baseline.sizing.getD 0
  let action_display :=
    if action_str = "RAISE" ∧ sizing ≠ 0 then "RAISE to $" ++ format_two_decimals sizing
    else if action_str = "BET" ∧ sizing ≠ 0 then "BET $" ++ format_two_decimals sizing
    else action_str
  mkRecommendation (some action_display) (some sizing)
    (gto_baseline.confidence.getD (mkRat 3 4))
    "LLM reasoning unavailable. Using GTO baseline only." [] (some gto_baseline)
    "gto_only" true

/-- The provider loop of `LLMOrchestrator.get_recommendation`: skip a
provider that is unavailable or whose attempt returned no parsed dict
(`if result:` over `None`); the first parsed dict ends the loop with a
`Recommendation(...)` construction — which RAISES (`.error`) rather than
moving on when that dict carries no action or fails validation — labelled
with its provider and `fallback_used` iff that provider is not
`"claude_cli"`; the GTO-only fallback is reached only when the list is
exhausted. -/
def try_providers (gto_baseline : GtoDict) :
    List (String × Provider) → Except ValidationError Recommendation
  | [] => gto_only_recommendation gto_baseline
  | (provider_name, provider) :: rest =>
    if ¬ provider.is_available then try_providers gto_baseline rest
    else
      match provider.result with
      | some result =>
        mkRecommendation result.action result.amount result.confidence result.reasoning
          result.alternatives (some gto_baseline) provider_name
          (provider_name ≠ "claude_cli")
      | none => try_providers gto_baseline rest

/-- `LLMOrchestrator.__init__` state: the three providers. -/
structure LLMOrchestrator where
  claude : Provider
  openai : Provider
  gemini : Provider
deriving DecidableEq, Repr

/-- The fixed provider priority list of `get_recommendation`. -/
def LLMOrchestrator.providers (o : LLMOrchestrator) : List (String × Provider) :=
  [("claude_cli", o.claude), ("openai", o.openai), ("gemini", o.gemini)]

/-- `LLMOrchestrator.get_recommendation` (`.error e` = the call raises the
pydantic `ValidationError` `e`). -/
def LLMOrchestrator.get_recommendation (o : LLMOrchestrator) (gto_baseline : GtoDict) :
    Except ValidationError Recommendation :=
  try_providers gto_baseline o.providers

/-! ## `src/vision/fastvlm_inference.py`, `_validate_game_state` -/

/-- The `"confidence"` entry of a raw parsed payload: absent, present but
not a dict, or a dict of numeric scores. -/
inductive ConfField where
  | absent : ConfField
  | notDict : ConfField
  | dict : List (String × ℚ) → ConfField
deriving DecidableEq, Repr

/-- A raw parsed perception payload (`data` in `_validate_game_state`),
every field optional. -/
structure RawData where
  hole_cards : Option (List String)
  board : Option (List String)
  pot : Option ℚ
  your_stack : Option ℚ
  position : Option String
  action_on_you : Option Bool
  confidence : ConfField
deriving DecidableEq, Repr

/-- `FastVLMInference._validate_game_state`: normalize a raw payload into an
observation, resetting a non-dict confidence entry to `{}` and replacing an
empty confidence dict by the fixed neutral `0.5` scores for the four
standard fields. -/
def validate_game_state (data : RawData) : Obs :=
  let confidence := match data.confidence with
    | ConfField.dict m => m
    | _ => []
  let confidence_out :=
    if confidence.isEmpty then
      [("hole_cards", mkRat 1 2), ("board", mkRat 1 2), ("pot", mkRat 1 2),
        ("stacks", mkRat 1 2)]
    else confidence
  { hole_cards := data.hole_cards.getD []
    board := data.board.getD []
    pot := match data.pot with
      | some p => if p ≠ 0 then p else 0
      | none => 0
    your_stack := match data.your_stack with
      | some s => if s ≠ 0 then s else 0
      | none => 0
    position := data.position.getD "UNKNOWN"
    action_on_you := data.action_on_you.getD false
    confidence := confidence_out.map (fun v => (v.1, some v.2)) }

/-! ## Concrete fixtures used by the witness theorems -/

/-- An observation with full per-field confidence (used as the accepted
demo frame; the board is a parameter so one fixture covers the boundary
sequence of the spec's boundary-detection scenario). -/
def demo_board_obs (board : List String) : Obs :=
  { hole_cards := ["Ah", "Kd"], board := board, pot := 100, your_stack := 1000
    position := "BTN", action_on_you := true
    confidence := [("hole_cards", some 1), ("board", some 1), ("pot", some 1), ("stacks", some 1)] }

/-- The spec's boundary scenario: board length 0 → 3 → 4 → 0 → 3. -/
def demo_seq : List Obs :=
  [demo_board_obs [], demo_board_obs ["2h", "7d", "Jc"],
    demo_board_obs ["2h", "7d", "Jc", "Qs"], demo_board_obs [], demo_board_obs ["2h", "7d", "Jc"]]

/-- The `GameState` the manager builds from `demo_board_obs []`. -/
def demo_gs : GameState :=
  { hole_cards := ["Ah", "Kd"], board := [], pot := 100, your_stack := 1000
    position := "BTN", action_on_you := true
    confidence := [("hole_cards", 1), ("board", 1), ("pot", 1), ("stacks", 1)] }

/-- An observation whose hole-card list is empty (everything else fully
confident). -/
def empty_hole_obs : Obs :=
  { hole_cards := [], board := [], pot := 0, your_stack := 1000
    position := "BTN", action_on_you := true
    confidence := [("hole_cards", some 1), ("board", some 1), ("pot", some 1), ("stacks", some 1)] }

/-- An observation carrying no confidence fields at all. -/
def no_conf_obs : Obs :=
  { hole_cards := ["Ah", "Kd"], board := [], pot := 100, your_stack := 1000
    position := "BTN", action_on_you := true, confidence := [] }

/-- A loaded cache holding the spec's example preflop entry
`("BTN", "AKo") → RAISE 3.0` and no postflop buckets. -/
def demo_cache : GTOStrategyCache :=
  { preflop_ranges :=
      [("BTN", [("AKo", { action := some "RAISE", sizing := some 3, confidence := none })])]
    postflop_buckets := []
    loaded := true }

/-- A structurally valid provider result. -/
def demo_result : ProviderResult :=
  { action := some "CALL", amount := some 50, confidence := mkRat 87 100
    reasoning := "pot odds", alternatives := [] }

/-- A parsed provider dict carrying no action — what the OpenAI/Gemini
parsers produce for parseable JSON (such as `{}`) that omits the key. -/
def action_none_result : ProviderResult :=
  { action := none, amount := none, confidence := mkRat 3 4
    reasoning := "", alternatives := [] }

/-- A baseline dict (the preflop miss result). -/
def demo_baseline : GtoDict :=
  { action := some "FOLD", sizing := some 0, confidence := some (mkRat 9 10) }

/-- A raw perception payload whose confidence dict holds only a `"pot"`
score. -/
def raw_pot_only : RawData :=
  { hole_cards := none, board := none, pot := none, your_stack := none
    position := none, action_on_you := none
    confidence := ConfField.dict [("pot", mkRat 9 10)] }

/-- A raw perception payload with no confidence entry at all. -/
def raw_absent : RawData :=
  { hole_cards := none, board := none, pot := none, your_stack := none
    position := none, action_on_you := none
    confidence := ConfField.absent }

/-- Per-cycle accept and boundary flags of a run of the state manager:
`(is_confident, hand_number changed)` for each observation in turn. -/
def run_flags : GameStateManager → List Obs → List (Bool × Bool)
  | _, [] => []
  | m, o :: rest =>
    let r := m.process_vision_output o
    (r.1.1, r.2.hand_number != m.hand_number) :: run_flags r.2 rest

/-- An orchestrator in total outage: no provider available. -/
def all_down : LLMOrchestrator :=
  { claude := { is_available := false, result := none }
    openai := { is_available := false, result := none }
    gemini := { is_available := false, result := none } }

/-- An orchestrator where only the third (lowest-priority) provider is
available. -/
def third_only : LLMOrchestrator :=
  { claude := { is_available := false, result := none }
    openai := { is_available := false, result := none }
    gemini := { is_available := true, result := some demo_result } }

/-- An orchestrator whose second provider is available but returns a
parseable action-less payload, while the third is available with a valid
result. -/
def invalid_then_valid : LLMOrchestrator :=
  { claude := { is_available := false, result := none }
    openai := { is_available := true, result := some action_none_result }
    gemini := { is_available := true, result := some demo_result } }

theorem qadd_eq (a b : ℚ) : qadd a b = a + b := by
  unfold qadd
  rw [Rat.mkRat_eq_divInt]
  conv_rhs => rw [← Rat.num_divInt_den a, ← Rat.num_divInt_den b]
  rw [Rat.divInt_add_divInt _ _ (by exact_mod_cast a.den_nz) (by exact_mod_cast b.den_nz)]
  push_cast
  ring_nf

theorem qmul_eq (a b : ℚ) : qmul a b = a * b := by
  unfold qmul
  rw [Rat.mkRat_eq_divInt]
  conv_rhs => rw [← Rat.num_divInt_den a, ← Rat.num_divInt_den b]
  rw [Rat.divInt_mul_divInt']
  push_cast
  ring_nf

theorem qinv_eq (a : ℚ) : qinv a = a⁻¹ := by
  unfold qinv
  rw [Rat.inv_def']
  rcases lt_trichotomy a.num 0 with h | h | h
  · rw [if_pos h, Rat.mkRat_eq_divInt, Int.ofNat_natAbs_of_nonpos (le_of_lt h),
      ← Rat.neg_divInt_neg]
    norm_num
  · rw [if_neg (by omega), Rat.mkRat_eq_divInt, h]
    simp
  · rw [if_neg (by omega), Rat.mkRat_eq_divInt, Int.natAbs_of_nonneg (le_of_lt h)]

theorem qdiv_eq (a b : ℚ) : qdiv a b = a / b := by
  rw [qdiv, qmul_eq, qinv_eq, div_eq_mul_inv]

theorem qsub_eq (a b : ℚ) : qsub a b = a - b := by
  unfold qsub
  rw [Rat.mkRat_eq_divInt]
  conv_rhs => rw [← Rat.num_divInt_den a, ← Rat.num_divInt_den b]
  rw [Rat.divInt_sub_divInt _ _ (by exact_mod_cast a.den_nz) (by exact_mod_cast b.den_nz)]
  push_cast
  ring_nf

theorem qsum_eq : ∀ l : List ℚ, qsum l = l.sum
  | [] => rfl
  | x :: xs => by rw [qsum, qadd_eq, qsum_eq xs, List.sum_cons]

/-! ## Decimal literals of the source, as normalized rationals -/

theorem q_half : (0.5 : ℚ) = mkRat 1 2 := by norm_num [Rat.mkRat_eq_div]

theorem q_070 : (0.70 : ℚ) = mkRat 7 10 := by norm_num [Rat.mkRat_eq_div]

theorem q_075 : (0.75 : ℚ) = mkRat 3 4 := by norm_num [Rat.mkRat_eq_div]

theorem q_085 : (0.85 : ℚ) = mkRat 17 20 := by norm_num [Rat.mkRat_eq_div]

theorem q_090 : (0.90 : ℚ) = mkRat 9 10 := by norm_num [Rat.mkRat_eq_div]

theorem q_060 : (0.60 : ℚ) = mkRat 3 5 := by norm_num [Rat.mkRat_eq_div]

/-! ## Helper lemmas -/

theorem sameSet_iff (a b : List String) : sameSet a b = true ↔ ∀ x, x ∈ a ↔ x ∈ b := by
  unfold sameSet
  simp only [Bool.and_eq_true, List.all_eq_true, List.contains, List.elem_eq_mem,
    decide_eq_true_eq]
  constructor
  · rintro ⟨h1, h2⟩ x
    exact ⟨fun hx => h1 x hx, fun hx => h2 x hx⟩
  · intro h
    exact ⟨fun x hx => (h x).1 hx, fun x hx => (h x).2 hx⟩

theorem sameSet_refl (a : List String) : sameSet a a = true :=
  (sameSet_iff a a).mpr (fun _ => Iff.rfl)

theorem normalize_card_shape (c d : String) (h : normalize_card c = some d) :
    ∃ r s, d = String.mk [r, s] ∧ RANKS.contains r = true ∧ SUITS.contains s = true := by
  unfold normalize_card at h
  rcases hl : c.toList with _ | ⟨c0, tl⟩
  · rw [hl] at h; cases h
  rcases tl with _ | ⟨c1, tl2⟩
  · rw [hl] at h; cases h
  rcases tl2 with _ | ⟨c2, tl3⟩
  · rw [hl] at h
    dsimp only at h
    by_cases hc : (RANKS.contains c0.toUpper && SUITS.contains c1.toLower) = true
    · rw [if_pos hc] at h
      rw [Bool.and_eq_true] at hc
      exact ⟨c0.toUpper, c1.toLower, (Option.some.injEq _ _).mp h.symm, hc.1, hc.2⟩
    · rw [if_neg hc] at h; cases h
  · rw [hl] at h; cases h

theorem RANK_MAP_inj_on (r s : Char) (hr : RANKS.contains r = true)
    (hs : RANKS.contains s = true) (h : RANK_MAP r = RANK_MAP s) : r = s := by
  have hr2 : r ∈ RANKS := by simpa [List.contains] using hr
  have hs2 : s ∈ RANKS := by simpa [List.contains] using hs
  fin_cases hr2 <;> fin_cases hs2 <;> revert h <;> decide

theorem normalize_hand_comm (a b : String) : normalize_hand [a, b] = normalize_hand [b, a] := by
  unfold normalize_hand
  dsimp only
  rcases ha : normalize_card a with _ | ca
  · rcases hb : normalize_card b with _ | cb <;> rfl
  rcases hb : normalize_card b with _ | cb
  · rfl
  obtain ⟨r1, s1, hca, hr1, hs1⟩ := normalize_card_shape a ca ha
  obtain ⟨r2, s2, hcb, hr2, hs2⟩ := normalize_card_shape b cb hb
  subst hca hcb
  dsimp only [String.toList]
  rcases Nat.lt_trichotomy (RANK_MAP r1) (RANK_MAP r2) with h | h | h
  · rw [if_pos h, if_neg (show ¬ RANK_MAP r2 < RANK_MAP r1 from by omega)]
  · have hrr : r1 = r2 := RANK_MAP_inj_on r1 r2 hr1 hr2 h
    subst hrr
    rw [if_neg (show ¬ RANK_MAP r1 < RANK_MAP r1 from by omega)]
    simp
  · rw [if_neg (show ¬ RANK_MAP r1 < RANK_MAP r2 from by omega), if_pos h]

theorem normalize_hand_some (a b ca cb : String) (ha : normalize_card a = some ca)
    (hb : normalize_card b = some cb) : ∃ k, normalize_hand [a, b] = some k := by
  obtain ⟨r1, s1, hca, hr1, hs1⟩ := normalize_card_shape a ca ha
  obtain ⟨r2, s2, hcb, hr2, hs2⟩ := normalize_card_shape b cb hb
  subst hca hcb
  unfold normalize_hand
  dsimp only
  rw [ha, hb]
  dsimp only [String.toList]
  rw [← Option.isSome_iff_exists]
  split
  · split
    · rfl
    · split <;> rfl
  · split
    · rfl
    · split <;> rfl

theorem normalize_hand_shape (a b k : String) (h : normalize_hand [a, b] = some k) :
    ∃ c1 c2 rest, k.toList = c1 :: c2 :: rest ∧ RANK_MAP c2 ≤ RANK_MAP c1 ∧
      ((c1 = c2 ∧ rest = []) ∨ (c1 ≠ c2 ∧ (rest = ['s'] ∨ rest = ['o']))) := by
  unfold normalize_hand at h
  dsimp only at h
  rcases ha : normalize_card a with _ | ca
  · rw [ha] at h; cases h
  rcases hb : normalize_card b with _ | cb
  · rw [ha, hb] at h; cases h
  obtain ⟨r1, s1, hca, hr1, hs1⟩ := normalize_card_shape a ca ha
  obtain ⟨r2, s2, hcb, hr2, hs2⟩ := normalize_card_shape b cb hb
  subst hca hcb
  rw [ha, hb] at h
  dsimp only [String.toList] at h
  by_cases hlt : RANK_MAP r1 < RANK_MAP r2
  · rw [if_pos hlt] at h
    dsimp only at h
    by_cases heq : r2 = r1
    · rw [if_pos heq] at h
      obtain rfl := Option.some.inj h
      exact ⟨r2, r1, [], rfl, Nat.le_of_lt hlt, Or.inl ⟨heq, rfl⟩⟩
    · rw [if_neg heq] at h
      by_cases hsu : s2 = s1
      · rw [if_pos hsu] at h
        obtain rfl := Option.some.inj h
        exact ⟨r2, r1, ['s'], rfl, Nat.le_of_lt hlt, Or.inr ⟨heq, Or.inl rfl⟩⟩
      · rw [if_neg hsu] at h
        obtain rfl := Option.some.inj h
        exact ⟨r2, r1, ['o'], rfl, Nat.le_of_lt hlt, Or.inr ⟨heq, Or.inr rfl⟩⟩
  · rw [if_neg hlt] at h
    dsimp only at h
    by_cases heq : r1 = r2
    · rw [if_pos heq] at h
      obtain rfl := Option.some.inj h
      exact ⟨r1, r2, [], rfl, by omega, Or.inl ⟨heq, rfl⟩⟩
    · rw [if_neg heq] at h
      by_cases hsu : s1 = s2
      · rw [if_pos hsu] at h
        obtain rfl := Option.some.inj h
        exact ⟨r1, r2, ['s'], rfl, by omega, Or.inr ⟨heq, Or.inl rfl⟩⟩
      · rw [if_neg hsu] at h
        obtain rfl := Option.some.inj h
        exact ⟨r1, r2, ['o'], rfl, by omega, Or.inr ⟨heq, Or.inr rfl⟩⟩

theorem get_action_preflop (c : GTOStrategyCache) (position : String)
    (cards : List String) (pot stack : ℚ) (h : c.loaded = true) :
    c.get_action position cards [] pot stack = c.get_preflop_action position cards := by
  unfold GTOStrategyCache.get_action
  rw [h]
  simp

/-- C5: preflop policy lookup.  For a loaded cache and an empty board, the
two hole cards are normalized into a canonical hand-class key —
order-independent in the two cards, higher rank first, a two-character key
for a pair and a three-character key ending in 's'/'o' otherwise — and
`(position, hand-class)` is looked up: a hit returns the stored action
tagged with confidence 0.85, and a miss (hand absent from the position's
stored range) returns `{action: FOLD, sizing: 0, confidence: 0.90}`. -/
theorem C5_preflop_lookup (c : GTOStrategyCache) (position : String)
    (cards : List String) (pot stack : ℚ) (hand_key : String)
    (hloaded : c.loaded = true) (hkey : normalize_hand cards = some hand_key) :
    (∀ a b : String, normalize_hand [a, b] = normalize_hand [b, a]) ∧
    (∀ a b : String, cards = [a, b] →
      ∃ c1 c2 rest, hand_key.toList = c1 :: c2 :: rest ∧ RANK_MAP c2 ≤ RANK_MAP c1 ∧
        ((c1 = c2 ∧ rest = []) ∨ (c1 ≠ c2 ∧ (rest = ['s'] ∨ rest = ['o'])))) ∧
    (∀ action_data, ((c.preflop_ranges.lookup position).getD []).lookup hand_key =
        some action_data →
      c.get_action position cards [] pot stack =
        { action_data with confidence := some (0.85 : ℚ) }) ∧
    (((c.preflop_ranges.lookup position).getD []).lookup hand_key = none →
      c.get_action position cards [] pot stack =
        { action := some "FOLD", sizing := some 0, confidence := some (0.90 : ℚ) }) := by
  refine ⟨normalize_hand_comm, ?_, ?_, ?_⟩
  · intro a b hcards
    subst hcards
    exact normalize_hand_shape a b hand_key hkey
  · intro action_data had
    rw [get_action_preflop c position cards pot stack hloaded]
    unfold GTOStrategyCache.get_preflop_action
    rw [hkey]
    dsimp only
    rw [had, q_085]
  · intro hmiss
    rw [get_action_preflop c position cards pot stack hloaded]
    unfold GTOStrategyCache.get_preflop_action
    rw [hkey]
    dsimp only
    rw [hmiss, q_090]

theorem C5_preflop_lookup_witness :
    demo_cache.get_action "BTN" ["Ah", "Kd"] [] 0 1000 =
      { action := some "RAISE", sizing := some 3, confidence := some (0.85 : ℚ) } := by
  have h := C5_preflop_lookup demo_cache "BTN" ["Ah", "Kd"] 0 1000 "AKo" rfl (by decide)
  exact h.2.2.1 { action := some "RAISE", sizing := some 3, confidence := none } (by decide)

/-- C9: default fallbacks of the preflop branch.  Hand normalization fails
exactly when the hole-card list is empty, has a length other than two, or
contains an invalid card; in that case a loaded cache's preflop lookup
returns the default `{action: CHECK, sizing: 0, confidence: 0.50}` (not the
preflop miss result), and every lookup performed before the cache is loaded
returns the same default for any board. -/
theorem C9_default_fallbacks (c : GTOStrategyCache) (position : String)
    (cards : List String) (pot stack : ℚ) :
    (normalize_hand cards = none ↔
      cards = [] ∨ cards.length ≠ 2 ∨ ∃ card ∈ cards, normalize_card card = none) ∧
    (c.loaded = true → normalize_hand cards = none →
      c.get_action position cards [] pot stack =
        { action := some "CHECK", sizing := some 0, confidence := some (0.5 : ℚ) }) ∧
    (c.loaded = false → ∀ board, c.get_action position cards board pot stack =
      { action := some "CHECK", sizing := some 0, confidence := some (0.5 : ℚ) }) := by
  refine ⟨?_, ?_, ?_⟩
  · constructor
    · intro h
      rcases cards with _ | ⟨a, _ | ⟨b, _ | ⟨x, rest⟩⟩⟩
      · exact Or.inl rfl
      · exact Or.inr (Or.inl (by simp))
      · rcases ha : normalize_card a with _ | ca
        · exact Or.inr (Or.inr ⟨a, by simp, ha⟩)
        rcases hb : normalize_card b with _ | cb
        · exact Or.inr (Or.inr ⟨b, by simp, hb⟩)
        obtain ⟨k, hk⟩ := normalize_hand_some a b ca cb ha hb
        rw [hk] at h
        cases h
      · exact Or.inr (Or.inl (by simp))
    · intro h
      rcases h with h | h | ⟨card, hmem, hnone⟩
      · subst h; rfl
      · rcases cards with _ | ⟨a, _ | ⟨b, _ | ⟨x, rest⟩⟩⟩ <;> first | rfl | (exfalso; exact h rfl)
      · rcases cards with _ | ⟨a, _ | ⟨b, _ | ⟨x, rest⟩⟩⟩
        · rfl
        · rfl
        · unfold normalize_hand
          dsimp only
          rcases hmem2 : [a, b] with _ | ⟨a2, t2⟩
          · cases hmem2
          rcases List.mem_pair.mp hmem with hc | hc
          · subst hc
            rw [hnone]
          · subst hc
            rcases hathis : normalize_card a with _ | ca
            · rfl
            · rw [hnone]
        · rfl
  · intro hloaded hnone
    rw [get_action_preflop c position cards pot stack hloaded]
    unfold GTOStrategyCache.get_preflop_action
    rw [hnone]
    dsimp only [GTOStrategyCache.default_action]
    rw [q_half]
  · intro hnl board
    unfold GTOStrategyCache.get_action
    rw [hnl, if_pos (by simp : ¬false = true)]
    dsimp only [GTOStrategyCache.default_action]
    rw [q_half]

theorem C9_default_fallbacks_witness :
    demo_cache.get_action "BTN" [] [] 0 1000 =
      { action := some "CHECK", sizing := some 0, confidence := some (0.5 : ℚ) } :=
  (C9_default_fallbacks demo_cache "BTN" [] 0 1000).2.1 rfl rfl

theorem get_action_postflop (c : GTOStrategyCache) (position : String)
    (cards board : List String) (pot stack : ℚ) (h : c.loaded = true) (hb : board ≠ []) :
    c.get_action position cards board pot stack =
      c.get_postflop_action position cards board pot stack := by
  unfold GTOStrategyCache.get_action
  rw [h]
  have hbe : board.isEmpty = false := by
    cases board
    · exact absurd rfl hb
    · rfl
  rw [hbe]
  simp

/-- C6: postflop policy lookup.  For a loaded cache and a non-empty board,
the stack-to-pot ratio is `stack/pot` (100 when the pot is 0), bucketed
DEEP above 10, MEDIUM above 3, else SHALLOW; the
(hand-strength, board-texture, SPR-bucket) triple is looked up, a hit
returning the stored action tagged with confidence 0.75 and a miss
returning `{action: CHECK, sizing: 0, confidence: 0.60}`. -/
theorem C6_postflop_lookup (c : GTOStrategyCache) (position : String)
    (cards board : List String) (pot stack : ℚ)
    (hloaded : c.loaded = true) (hboard : board ≠ []) :
    (∀ spr : ℚ, bucket_spr spr =
      if 10 < spr then "DEEP" else if 3 < spr then "MEDIUM" else "SHALLOW") ∧
    (∀ action_data,
      c.postflop_buckets.lookup (calculate_hand_strength cards board,
        classify_board_texture board,
        bucket_spr (if 0 < pot then stack / pot else 100)) = some action_data →
      c.get_action position cards board pot stack =
        { action_data with confidence := some (0.75 : ℚ) }) ∧
    (c.postflop_buckets.lookup (calculate_hand_strength cards board,
        classify_board_texture board,
        bucket_spr (if 0 < pot then stack / pot else 100)) = none →
      c.get_action position cards board pot stack =
        { action := some "CHECK", sizing := some 0, confidence := some (0.60 : ℚ) }) := by
  refine ⟨fun _ => rfl, ?_, ?_⟩
  · intro action_data had
    rw [← qdiv_eq] at had
    rw [get_action_postflop c position cards board pot stack hloaded hboard]
    unfold GTOStrategyCache.get_postflop_action
    dsimp only
    rw [had]
    dsimp only
    rw [q_075]
  · intro hmiss
    rw [← qdiv_eq] at hmiss
    rw [get_action_postflop c position cards board pot stack hloaded hboard]
    unfold GTOStrategyCache.get_postflop_action
    dsimp only
    rw [hmiss]
    dsimp only
    rw [q_060]

theorem C6_postflop_lookup_witness :
    demo_cache.get_action "BTN" ["2h", "7d"] ["9c", "Td", "Kh"] 0 50 =
      { action := some "CHECK", sizing := some 0, confidence := some (0.60 : ℚ) } := by
  have h := C6_postflop_lookup demo_cache "BTN" ["2h", "7d"] ["9c", "Td", "Kh"] 0 50 rfl
    (by decide)
  exact h.2.2 rfl

theorem try_providers_all_fail (gto_baseline : GtoDict) :
    ∀ ps : List (String × Provider),
      (∀ p ∈ ps, p.2.is_available = false ∨ p.2.result = none) →
      try_providers gto_baseline ps = gto_only_recommendation gto_baseline := by
  intro ps
  induction ps with
  | nil => intro _; rfl
  | cons hd tl ih =>
    intro h
    obtain ⟨hn, hp⟩ := hd
    have hhd := h (hn, hp) (List.mem_cons_self _ _)
    dsimp only at hhd
    have htl := fun p hp2 => h p (List.mem_cons_of_mem _ hp2)
    unfold try_providers
    rcases hav : hp.is_available with _ | _
    · simp only [hav, Bool.false_eq_true, not_false_eq_true, if_true]
      exact ih htl
    · rcases hhd with hf | hf
      · rw [hav] at hf; cases hf
      · simp only [hav, hf, not_true_eq_false, if_false]
        exact ih htl

theorem try_providers_first_success (gto_baseline : GtoDict) :
    ∀ (ps : List (String × Provider)) (n : String) (p : Provider) (r : ProviderResult),
      ps.find? (fun q => q.2.is_available && q.2.result.isSome) = some (n, p) →
      p.result = some r →
      try_providers gto_baseline ps =
        mkRecommendation r.action r.amount r.confidence r.reasoning r.alternatives
          (some gto_baseline) n (n ≠ "claude_cli") := by
  intro ps
  induction ps with
  | nil => intro n p r hfind _; cases hfind
  | cons hd tl ih =>
    intro n p r hfind hres
    obtain ⟨hn, hp⟩ := hd
    rw [List.find?_cons] at hfind
    rcases hav : hp.is_available with _ | _
    · rw [show ((hn, hp).2.is_available && (hn, hp).2.result.isSome) = false by
        simp [hav]] at hfind
      unfold try_providers
      simp only [hav, Bool.false_eq_true, not_false_eq_true, if_true]
      exact ih n p r hfind hres
    · rcases hr : hp.result with _ | rv
      · rw [show ((hn, hp).2.is_available && (hn, hp).2.result.isSome) = false by
          simp [hav, hr]] at hfind
        unfold try_providers
        simp only [hav, not_true_eq_false, if_false, hr]
        exact ih n p r hfind hres
      · rw [show ((hn, hp).2.is_available && (hn, hp).2.result.isSome) = true by
          simp [hav, hr]] at hfind
        obtain ⟨rfl, rfl⟩ : hn = n ∧ hp = p := by
          have := Option.some.inj hfind
          exact ⟨congrArg Prod.fst this, congrArg Prod.snd this⟩
        rw [hr] at hres
        obtain rfl := Option.some.inj hres
        unfold try_providers
        simp only [hav, not_true_eq_false, if_false, hr]

/-- C1 counterexample: the claim fails twice at concrete inputs.  First, at
a total outage (no provider available, baseline `FOLD/0/0.90`) the
recommendation's `llm_provider` is the code's sentinel `"gto_only"`, not
`"baseline_only"`.  Second, when an attempted provider fails structurally
— OpenAI available and returning parseable JSON without an action — the
call raises a pydantic `ValidationError` instead of returning the
baseline-only recommendation. -/
theorem C1_counterexample :
    ((all_down.get_recommendation demo_baseline).toOption.map Recommendation.llm_provider) =
      some "gto_only" ∧
    ¬ ((all_down.get_recommendation demo_baseline).toOption.map
        Recommendation.llm_provider) = some "baseline_only" ∧
    invalid_then_valid.get_recommendation demo_baseline =
      Except.error ValidationError.missing_action := by
  refine ⟨by decide, by decide, by decide⟩

/-- C1 (amended): total-outage guarantee of the orchestrator.  If every
provider is unavailable or its attempt yields no parsed result at all
(timeout, transport failure, unparseable reply), and the baseline itself
passes the recommendation model's validation (an `Action`-enum member with
confidence in [0,1] when present), then `get_recommendation` returns —
without raising — the recommendation synthesized purely from the baseline:
sentinel provider `"gto_only"`, `fallback_used = true`, confidence copied
from the baseline (0.75 when the baseline carries none), the fixed
rationale string, and the action label formatted with the sizing exactly
when the action is RAISE or BET with a non-zero sizing.  (An attempted
provider returning a parsed but action-less result instead makes the call
raise, per the counterexample.) -/
theorem C1_total_outage (o : LLMOrchestrator) (gto_baseline : GtoDict) (a : String)
    (hc : o.claude.is_available = false ∨ o.claude.result = none)
    (ho : o.openai.is_available = false ∨ o.openai.result = none)
    (hg : o.gemini.is_available = false ∨ o.gemini.result = none)
    (hact : gto_baseline.action = some a)
    (hmem : action_values.contains a = true)
    (hconf : ∀ c, gto_baseline.confidence = some c → 0 ≤ c ∧ c ≤ 1) :
    o.get_recommendation gto_baseline = gto_only_recommendation gto_baseline ∧
    (∃ rec, o.get_recommendation gto_baseline = Except.ok rec ∧
      rec.llm_provider = "gto_only" ∧
      rec.fallback_used = true ∧
      rec.confidence = gto_baseline.confidence.getD (0.75 : ℚ) ∧
      rec.reasoning = "LLM reasoning unavailable. Using GTO baseline only." ∧
      rec.amount = some (gto_baseline.sizing.getD 0) ∧
      rec.action =
        (if a = "RAISE" ∧ gto_baseline.sizing.getD 0 ≠ 0 then
          "RAISE to $" ++ format_two_decimals (gto_baseline.sizing.getD 0)
        else if a = "BET" ∧ gto_baseline.sizing.getD 0 ≠ 0 then
          "BET $" ++ format_two_decimals (gto_baseline.sizing.getD 0)
        else a)) := by
  have hmain : o.get_recommendation gto_baseline = gto_only_recommendation gto_baseline := by
    refine try_providers_all_fail gto_baseline o.providers ?_
    intro p hp
    simp only [LLMOrchestrator.providers, List.mem_cons, List.not_mem_nil, or_false] at hp
    rcases hp with rfl | rfl | rfl
    · exact hc
    · exact ho
    · exact hg
  have hb75 : 0 ≤ gto_baseline.confidence.getD (mkRat 3 4) ∧
      gto_baseline.confidence.getD (mkRat 3 4) ≤ 1 := by
    rcases hgc : gto_baseline.confidence with _ | c
    · exact ⟨by decide, by decide⟩
    · exact ⟨(hconf c hgc).1, (hconf c hgc).2⟩
  have hb0 : 0 ≤ gto_baseline.confidence.getD 0 ∧ gto_baseline.confidence.getD 0 ≤ 1 := by
    rcases hgc : gto_baseline.confidence with _ | c
    · exact ⟨by decide, by decide⟩
    · exact ⟨(hconf c hgc).1, (hconf c hgc).2⟩
  have hgto : mkGTOAction gto_baseline = Except.ok
      { action := a, sizing := gto_baseline.sizing,
        confidence := gto_baseline.confidence.getD 0 } := by
    unfold mkGTOAction
    rw [hact]
    dsimp only
    rw [if_pos hmem, if_pos hb0]
  have hrec : gto_only_recommendation gto_baseline = Except.ok
      { action :=
          (if a = "RAISE" ∧ gto_baseline.sizing.getD 0 ≠ 0 then
            "RAISE to $" ++ format_two_decimals (gto_baseline.sizing.getD 0)
          else if a = "BET" ∧ gto_baseline.sizing.getD 0 ≠ 0 then
            "BET $" ++ format_two_decimals (gto_baseline.sizing.getD 0)
          else a)
        amount := some (gto_baseline.sizing.getD 0)
        confidence := gto_baseline.confidence.getD (mkRat 3 4)
        reasoning := "LLM reasoning unavailable. Using GTO baseline only."
        alternatives := []
        gto_baseline := some
          { action := a, sizing := gto_baseline.sizing,
            confidence := gto_baseline.confidence.getD 0 }
        llm_provider := "gto_only"
        fallback_used := true } := by
    unfold gto_only_recommendation mkRecommendation
    rw [hact]
    dsimp only
    rw [if_pos hb75, hgto]
    simp only [Option.getD_some]
  refine ⟨hmain, ⟨_, hmain.trans hrec, rfl, rfl, by rw [q_075], rfl, rfl, rfl⟩⟩

theorem C1_total_outage_witness :
    all_down.get_recommendation demo_baseline = gto_only_recommendation demo_baseline ∧
    ∃ rec, all_down.get_recommendation demo_baseline = Except.ok rec ∧
      rec.llm_provider = "gto_only" ∧ rec.fallback_used = true ∧
      rec.confidence = mkRat 9 10 := by
  have h := C1_total_outage all_down demo_baseline "FOLD" (Or.inl rfl) (Or.inl rfl)
    (Or.inl rfl) rfl (by decide) (fun c hc => by
      rw [show c = mkRat 9 10 from (Option.some.inj hc).symm]
      exact ⟨by decide, by decide⟩)
  obtain ⟨h1, rec, h2, h3, h4, h5, _⟩ := h
  exact ⟨h1, rec, h2, h3, h4, h5⟩

/-- C2 counterexample: the second provider (OpenAI) is available and
returns parseable JSON lacking an action — a structurally invalid result —
while the third (Gemini) is available with a valid one.  The claim says
the first structurally valid result (Gemini's) wins; the code instead
raises a pydantic `ValidationError` at the OpenAI result, so no
recommendation is returned at all. -/
theorem C2_counterexample :
    invalid_then_valid.get_recommendation demo_baseline =
      Except.error ValidationError.missing_action ∧
    (invalid_then_valid.get_recommendation demo_baseline).toOption = none := by
  refine ⟨by decide, by decide⟩

/-- C2 (amended): provider fallback ordering.  The orchestrator's priority
list is `claude_cli, openai, gemini`; providers are tried strictly in that
order, and one is passed over exactly when it is unavailable or its
attempt produced no parsed result (timeout, transport failure,
unparseable reply).  The first available provider that does return a
parsed result ends the chain: when that result carries an action (and its
confidence and the baseline pass the model's validation) it wins, and the
recommendation records that provider's identifier with
`fallback_used = true` iff it is not the first provider; when the parsed
result lacks an action, the call raises a `ValidationError` instead of
trying later providers.  In particular, with three providers of which
only the third is available (returning a valid result), the
recommendation carries the third provider's identifier and
`fallback_used = true`. -/
theorem C2_fallback_ordering (o : LLMOrchestrator) (gto_baseline : GtoDict)
    (n : String) (p : Provider) (r : ProviderResult)
    (hfind : o.providers.find? (fun q => q.2.is_available && q.2.result.isSome) = some (n, p))
    (hres : p.result = some r) :
    o.providers.map Prod.fst = ["claude_cli", "openai", "gemini"] ∧
    o.get_recommendation gto_baseline =
      mkRecommendation r.action r.amount r.confidence r.reasoning r.alternatives
        (some gto_baseline) n (n ≠ "claude_cli") ∧
    (∀ a, r.action = some a → 0 ≤ r.confidence → r.confidence ≤ 1 →
      ∀ g, mkGTOAction gto_baseline = Except.ok g →
      o.get_recommendation gto_baseline = Except.ok
        { action := a, amount := r.amount, confidence := r.confidence,
          reasoning := r.reasoning, alternatives := r.alternatives,
          gto_baseline := some g, llm_provider := n,
          fallback_used := n ≠ "claude_cli" }) ∧
    (r.action = none →
      o.get_recommendation gto_baseline = Except.error ValidationError.missing_action) := by
  have hmain : o.get_recommendation gto_baseline =
      mkRecommendation r.action r.amount r.confidence r.reasoning r.alternatives
        (some gto_baseline) n (n ≠ "claude_cli") :=
    try_providers_first_success gto_baseline o.providers n p r hfind hres
  refine ⟨rfl, hmain, ?_, ?_⟩
  · intro a ha h0 h1 g hgto
    rw [hmain]
    unfold mkRecommendation
    rw [ha]
    dsimp only
    rw [if_pos ⟨h0, h1⟩, hgto]
  · intro ha
    rw [hmain]
    unfold mkRecommendation
    rw [ha]

theorem C2_fallback_ordering_witness :
    third_only.get_recommendation demo_baseline = Except.ok
      { action := "CALL", amount := some 50, confidence := mkRat 87 100,
        reasoning := "pot odds", alternatives := [],
        gto_baseline :=
          some { action := "FOLD", sizing := some 0, confidence := mkRat 9 10 },
        llm_provider := "gemini", fallback_used := true } := by
  have h := C2_fallback_ordering third_only demo_baseline "gemini"
    { is_available := true, result := some demo_result } demo_result (by decide) rfl
  exact h.2.2.1 "CALL" rfl (by decide) (by decide)
    { action := "FOLD", sizing := some 0, confidence := mkRat 9 10 } (by decide)

/-- C8 counterexample: for an input whose confidence dict supplies only a
`"pot"` score, the fields absent from the input (here `"hole_cards"`) do
NOT receive the neutral 0.5 — the supplied partial dict is passed through
unchanged. -/
theorem C8_counterexample :
    (validate_game_state raw_pot_only).confidence = [("pot", some (mkRat 9 10))] ∧
    (validate_game_state raw_pot_only).confidence.lookup "hole_cards" = none := by
  constructor <;> decide

/-- C8 (amended): confidence defaulting is all-or-nothing.  The validated
observation carries the four standard confidence fields at the neutral 0.5
exactly when the input's confidence mapping is absent, not a mapping, or
empty; a non-empty supplied mapping is kept unchanged (its values
preserved, its missing fields not filled in). -/
theorem C8_confidence_defaulting (data : RawData) :
    (∀ m, data.confidence = ConfField.dict m → m ≠ [] →
      (validate_game_state data).confidence = m.map (fun v => (v.1, some v.2))) ∧
    ((data.confidence = ConfField.absent ∨ data.confidence = ConfField.notDict ∨
        data.confidence = ConfField.dict []) →
      (validate_game_state data).confidence =
        [("hole_cards", some (0.5 : ℚ)), ("board", some (0.5 : ℚ)),
          ("pot", some (0.5 : ℚ)), ("stacks", some (0.5 : ℚ))]) := by
  constructor
  · intro m hm hne
    unfold validate_game_state
    rw [hm]
    dsimp only
    rw [show m.isEmpty = false from by
      cases m
      · exact absurd rfl hne
      · rfl]
    rfl
  · intro h
    rw [q_half]
    rcases h with h | h | h <;> rw [validate_game_state, h] <;> rfl

theorem C8_confidence_defaulting_witness :
    (validate_game_state raw_absent).confidence =
      [("hole_cards", some (0.5 : ℚ)), ("board", some (0.5 : ℚ)),
        ("pot", some (0.5 : ℚ)), ("stacks", some (0.5 : ℚ))] :=
  (C8_confidence_defaulting raw_absent).2 (Or.inl rfl)

theorem window_getLast (v : ConfidenceValidator) (s : Obs) (h : 1 ≤ v.buffer_size) :
    ((v.validate s).2).state_buffer.getLast? = some s := by
  unfold ConfidenceValidator.validate
  dsimp only
  split
  · rename_i hpop
    rcases hb : v.state_buffer with _ | ⟨x, xs⟩
    · rw [hb] at hpop
      simp at hpop
      omega
    · rw [List.cons_append, List.tail_cons]
      exact List.getLast?_concat _
  · exact List.getLast?_concat _

/-- C10: a rejected observation leaves the episode state unchanged.  When
validation rejects, `process_vision_output` returns
`(False, confidence, None)` and the manager's `current_state`,
`hand_number` and `session_id` are untouched; the only mutation is the
validator's rolling window, which has recorded the rejected observation
(it is the window's most recent entry whenever the window can hold
anything at all). -/
theorem C10_rejection_frame (m : GameStateManager) (vision_data : Obs)
    (hrej : (m.validator.validate vision_data).1.1 = false) :
    (m.process_vision_output vision_data).1 =
      (false, (m.validator.validate vision_data).1.2, none) ∧
    (m.process_vision_output vision_data).2.current_state = m.current_state ∧
    (m.process_vision_output vision_data).2.hand_number = m.hand_number ∧
    (m.process_vision_output vision_data).2.session_id = m.session_id ∧
    (m.process_vision_output vision_data).2.validator =
      (m.validator.validate vision_data).2 ∧
    (m.process_vision_output vision_data).2.validator.buffer_size =
      m.validator.buffer_size ∧
    (m.process_vision_output vision_data).2.validator.threshold = m.validator.threshold ∧
    (1 ≤ m.validator.buffer_size →
      (m.process_vision_output vision_data).2.validator.state_buffer.getLast? =
        some vision_data) := by
  have hproc : m.process_vision_output vision_data =
      ((false, (m.validator.validate vision_data).1.2, none),
        { m with validator := (m.validator.validate vision_data).2 }) := by
    unfold GameStateManager.process_vision_output
    dsimp only
    rw [hrej]
    simp
  refine ⟨?_, ?_, ?_, ?_, ?_, ?_, ?_, ?_⟩ <;> rw [hproc] <;>
    first
      | rfl
      | (intro hsize; exact window_getLast m.validator vision_data hsize)

theorem C10_rejection_frame_witness :
    ((GameStateManager.init default_threshold "sess").process_vision_output no_conf_obs).1 =
      (false, 0, none) ∧
    ((GameStateManager.init default_threshold
        "sess").process_vision_output no_conf_obs).2.current_state = none ∧
    ((GameStateManager.init default_threshold
        "sess").process_vision_output no_conf_obs).2.hand_number = 0 ∧
    ((GameStateManager.init default_threshold
        "sess").process_vision_output no_conf_obs).2.validator.state_buffer.getLast? =
      some no_conf_obs := by
  have h := C10_rejection_frame (GameStateManager.init default_threshold "sess") no_conf_obs
    (by decide)
  exact ⟨h.1, h.2.1, h.2.2.1, h.2.2.2.2.2.2.2 (by decide)⟩

theorem check_consistency_concat (pre : List Obs) (prev cur : Obs) :
    ConfidenceValidator.check_consistency (pre ++ [prev, cur]) =
      qdiv (qadd (ConfidenceValidator.check_hole_cards_consistency cur prev)
        (qadd (ConfidenceValidator.check_board_consistency cur prev)
          (ConfidenceValidator.check_pot_consistency cur prev))) 3 := by
  unfold ConfidenceValidator.check_consistency
  rw [show (pre ++ [prev, cur]).reverse = cur :: prev :: pre.reverse from by simp]

/-- C3: validator confidence computation.  The aggregate confidence is the
arithmetic mean of the numeric per-field confidence values (0.0 when there
are none, so such an observation is rejected under any positive
threshold); with fewer than two observations in the window (current one
included) the final confidence is the aggregate, otherwise it is the
aggregate times the consistency score, the mean of the three checks
against the immediately preceding observation; the observation is accepted
iff the final confidence reaches the configured threshold
(default 0.70). -/
theorem C3_validator_confidence (v : ConfidenceValidator) (s : Obs) :
    (ConfidenceValidator.aggregate_confidence s =
      if s.confidence.filterMap (fun p => p.2) = [] then 0
      else (s.confidence.filterMap (fun p => p.2)).sum /
        ((s.confidence.filterMap (fun p => p.2)).length : ℚ)) ∧
    ((v.validate s).2.state_buffer.length < 2 →
      (v.validate s).1.2 = ConfidenceValidator.aggregate_confidence s) ∧
    (∀ pre prev, v.state_buffer = pre ++ [prev] →
      2 ≤ (v.validate s).2.state_buffer.length →
      (v.validate s).1.2 = ConfidenceValidator.aggregate_confidence s *
        ((ConfidenceValidator.check_hole_cards_consistency s prev +
          ConfidenceValidator.check_board_consistency s prev +
          ConfidenceValidator.check_pot_consistency s prev) / 3)) ∧
    ((v.validate s).1.1 = true ↔ v.threshold ≤ (v.validate s).1.2) ∧
    (s.confidence.filterMap (fun p => p.2) = [] → 0 < v.threshold →
      (v.validate s).1.1 = false) ∧
    default_threshold = (0.70 : ℚ) := by
  have hagg : ConfidenceValidator.aggregate_confidence s =
      if s.confidence.filterMap (fun p => p.2) = [] then 0
      else (s.confidence.filterMap (fun p => p.2)).sum /
        ((s.confidence.filterMap (fun p => p.2)).length : ℚ) := by
    unfold ConfidenceValidator.aggregate_confidence
    rcases hc : s.confidence with _ | ⟨e, es⟩
    · simp
    · dsimp only
      rw [show ((e :: es : List (String × Option ℚ)).isEmpty) = false from rfl,
        if_neg (by simp : ¬ false = true)]
      rcases hsc : List.filterMap
          (fun p => (p : String × Option ℚ).2) (e :: es) with _ | ⟨q, qs⟩ <;>
        simp [qdiv_eq, qsum_eq]
  refine ⟨hagg, ?_, ?_, ?_, ?_, q_070.symm⟩
  · intro hlen
    unfold ConfidenceValidator.validate at hlen ⊢
    dsimp only at hlen ⊢
    rw [if_neg (show ¬ 2 ≤ (if v.buffer_size < (v.state_buffer ++ [s]).length then
      (v.state_buffer ++ [s]).tail else v.state_buffer ++ [s]).length from by omega)]
  · intro pre prev hbuf hlen
    unfold ConfidenceValidator.validate at hlen ⊢
    dsimp only at hlen ⊢
    rw [hbuf] at hlen ⊢
    rw [show (pre ++ [prev]) ++ [s] = pre ++ [prev, s] from by simp] at hlen ⊢
    split
    · rename_i hpop
      rcases pre with _ | ⟨x, xs⟩
      · rw [if_pos hpop] at hlen
        simp at hlen
      · rw [List.cons_append, List.tail_cons]
        rw [if_pos (show 2 ≤ (xs ++ [prev, s]).length from by simp)]
        rw [check_consistency_concat xs prev s, qmul_eq, qdiv_eq, qadd_eq, qadd_eq, add_assoc]
    · rw [if_pos (show 2 ≤ (pre ++ [prev, s]).length from by simp)]
      rw [check_consistency_concat pre prev s, qmul_eq, qdiv_eq, qadd_eq, qadd_eq, add_assoc]
  · exact decide_eq_true_iff
  · intro hsc hpos
    have hz : ConfidenceValidator.aggregate_confidence s = 0 := by
      rw [hagg, if_pos hsc]
    have hfin : (v.validate s).1.2 = 0 := by
      unfold ConfidenceValidator.validate
      dsimp only
      rw [hz]
      split <;> split <;> first | (rw [qmul_eq]; exact zero_mul _) | rfl
    have hform : (v.validate s).1.1 = decide (v.threshold ≤ (v.validate s).1.2) := rfl
    rw [hform]
    exact decide_eq_false (by rw [hfin]; exact not_le.mpr hpos)

theorem C3_validator_confidence_witness :
    ((ConfidenceValidator.init 3 default_threshold).validate no_conf_obs).1.1 = false :=
  (C3_validator_confidence (ConfidenceValidator.init 3 default_threshold)
    no_conf_obs).2.2.2.2.1 rfl (by decide)

theorem check_hole_self (s : Obs) (hne : s.hole_cards ≠ []) :
    ConfidenceValidator.check_hole_cards_consistency s s = 1 := by
  unfold ConfidenceValidator.check_hole_cards_consistency
  rw [if_neg (show ¬ ((s.hole_cards.isEmpty || s.hole_cards.isEmpty) = true) from by
    rcases h : s.hole_cards with _ | _
    · exact absurd h hne
    · simp)]
  rw [if_neg (show ¬ ¬ (sameSet s.hole_cards s.hole_cards = true) from by
    simp [sameSet_refl])]

theorem check_hole_self_empty (s : Obs) (h : s.hole_cards = []) :
    ConfidenceValidator.check_hole_cards_consistency s s = mkRat 1 2 := by
  unfold ConfidenceValidator.check_hole_cards_consistency
  rw [if_pos (show (s.hole_cards.isEmpty || s.hole_cards.isEmpty) = true from by simp [h])]

theorem check_board_self (s : Obs) : ConfidenceValidator.check_board_consistency s s = 1 := by
  unfold ConfidenceValidator.check_board_consistency
  rcases h : s.board with _ | ⟨c, cs⟩ <;> simp

theorem check_pot_self (s : Obs) : ConfidenceValidator.check_pot_consistency s s = 1 := by
  unfold ConfidenceValidator.check_pot_consistency
  by_cases h : s.pot = 0 <;> simp [h]

theorem validate_buffer_shape (v : ConfidenceValidator) (s : Obs) :
    ((v.validate s).2).state_buffer = [] ∨
    ∃ t, ((v.validate s).2).state_buffer = t ++ [s] := by
  unfold ConfidenceValidator.validate
  dsimp only
  split
  · rcases hb : v.state_buffer with _ | ⟨x, xs⟩
    · left
      rfl
    · right
      exact ⟨xs, by rw [List.cons_append, List.tail_cons]⟩
  · right
    exact ⟨v.state_buffer, rfl⟩

theorem check_consistency_self_pair (t : List Obs) (s : Obs) (hne : s.hole_cards ≠ []) :
    ConfidenceValidator.check_consistency (t ++ [s, s]) = 1 := by
  rw [check_consistency_concat t s s, check_hole_self s hne, check_board_self s,
    check_pot_self s]
  decide

theorem validate_final_on_self_window (v2 : ConfidenceValidator) (s : Obs)
    (hne : s.hole_cards ≠ [])
    (hshape : v2.state_buffer = [] ∨ ∃ t, v2.state_buffer = t ++ [s]) :
    (v2.validate s).1.2 = ConfidenceValidator.aggregate_confidence s := by
  rcases hshape with h | ⟨t, h⟩
  · unfold ConfidenceValidator.validate
    dsimp only
    rw [h, List.nil_append]
    split
    · rw [if_neg (show ¬ 2 ≤ ([s] : List Obs).tail.length from by simp)]
    · rw [if_neg (show ¬ 2 ≤ ([s] : List Obs).length from by simp)]
  · unfold ConfidenceValidator.validate
    dsimp only
    rw [h]
    rw [show (t ++ [s]) ++ [s] = t ++ [s, s] from by simp]
    split
    · rcases t with _ | ⟨x, xs⟩
      · rw [show (([] : List Obs) ++ [s, s]).tail = [s] from rfl]
        rw [if_neg (show ¬ 2 ≤ ([s] : List Obs).length from by simp)]
      · rw [List.cons_append, List.tail_cons]
        rw [if_pos (show 2 ≤ (xs ++ [s, s]).length from by simp)]
        rw [check_consistency_self_pair xs s hne, qmul_eq, mul_one]
    · rw [if_pos (show 2 ≤ (t ++ [s, s]).length from by simp)]
      rw [check_consistency_self_pair t s hne, qmul_eq, mul_one]

/-- C7 (amended): repeated validation of the identical observation.  The
board-growth and pot checks both score 1.0; the hole-card stability check
scores 1.0 exactly when the hole-card list is non-empty and 0.5 when it is
empty (the source treats empty hole cards as inconclusive); consequently,
when the hole cards are non-empty, the second of two consecutive `validate`
calls on the same observation applies a consistency factor of 1 — its
final confidence equals the aggregate confidence. -/
theorem C7_repeat_validate (v : ConfidenceValidator) (s : Obs) :
    ConfidenceValidator.check_board_consistency s s = 1 ∧
    ConfidenceValidator.check_pot_consistency s s = 1 ∧
    (s.hole_cards ≠ [] → ConfidenceValidator.check_hole_cards_consistency s s = 1) ∧
    (s.hole_cards = [] →
      ConfidenceValidator.check_hole_cards_consistency s s = (0.5 : ℚ)) ∧
    (s.hole_cards ≠ [] →
      (((v.validate s).2).validate s).1.2 = ConfidenceValidator.aggregate_confidence s) := by
  refine ⟨check_board_self s, check_pot_self s, check_hole_self s, ?_, ?_⟩
  · intro h
    rw [q_half]
    exact check_hole_self_empty s h
  · intro hne
    exact validate_final_on_self_window ((v.validate s).2) s hne (validate_buffer_shape v s)

theorem C7_repeat_validate_witness :
    ((((ConfidenceValidator.init 3 default_threshold).validate
        (demo_board_obs [])).2).validate (demo_board_obs [])).1.2 =
      ConfidenceValidator.aggregate_confidence (demo_board_obs []) :=
  (C7_repeat_validate (ConfidenceValidator.init 3 default_threshold)
    (demo_board_obs [])).2.2.2.2 (by decide)

/-- C7 counterexample: for an identical observation with an empty hole-card
list, the hole-card stability check scores 0.5 (not 1.0), and two
consecutive `validate` calls on it yield final confidence 5/6 of the
aggregate (here aggregate 1), so the consistency score is not 1.0. -/
theorem C7_counterexample :
    ConfidenceValidator.check_hole_cards_consistency empty_hole_obs empty_hole_obs =
      mkRat 1 2 ∧
    ¬ ConfidenceValidator.check_hole_cards_consistency empty_hole_obs empty_hole_obs = 1 ∧
    ((((ConfidenceValidator.init 3 default_threshold).validate
        empty_hole_obs).2).validate empty_hole_obs).1.2 = mkRat 5 6 ∧
    ¬ (((((ConfidenceValidator.init 3 default_threshold).validate
        empty_hole_obs).2).validate empty_hole_obs).1.2 =
      ConfidenceValidator.aggregate_confidence empty_hole_obs) := by
  refine ⟨by decide, by decide, by decide, by decide⟩

theorem mkRat_half_eq : (mkRat 1 2 : ℚ) = 1/2 := by norm_num [Rat.mkRat_eq_div]

theorem isEmpty_eq_false_of_ne_nil {α : Type} {l : List α} (h : l ≠ []) :
    l.isEmpty = false := by
  cases l
  · exact absurd rfl h
  · rfl

/-- C4: episode boundary detection.  An accepted observation starts a new
episode iff (1) no previous accepted observation exists, (2) the
board-identifier count strictly decreased, (3) the new pot is below half
the previous pot, or (4) the hole-card set changed with both sides
non-empty; on a boundary the hand counter is incremented by one and the
validator's window is reset; and on the spec's board-length sequence
0→3→4→0→3 the boundaries fall exactly at indices 0 and 3 (every
observation accepted). -/
theorem C4_episode_boundaries (m : GameStateManager) (vision_data : Obs) (gs : GameState) :
    (m.is_new_hand gs = true ↔
      m.current_state = none ∨
      ∃ cur, m.current_state = some cur ∧
        (gs.board.length < cur.board.length ∨
         gs.pot < cur.pot * (1/2) ∨
         (gs.hole_cards ≠ [] ∧ cur.hole_cards ≠ [] ∧
           ¬ ∀ x, x ∈ gs.hole_cards ↔ x ∈ cur.hole_cards))) ∧
    ((m.validator.validate vision_data).1.1 = true → mkGameState vision_data = some gs →
      m.is_new_hand gs = true →
      (m.process_vision_output vision_data).2.hand_number = m.hand_number + 1 ∧
      (m.process_vision_output vision_data).2.validator.state_buffer = []) ∧
    run_flags (GameStateManager.init default_threshold "sess") demo_seq =
      [(true, true), (true, false), (true, false), (true, true), (true, false)] := by
  refine ⟨?_, ?_, by decide⟩
  · unfold GameStateManager.is_new_hand
    rcases hcur : m.current_state with _ | cur
    · simp
    · simp only [Option.some.injEq, reduceCtorEq, false_or]
      constructor
      · intro h
        refine ⟨cur, rfl, ?_⟩
        by_cases h1 : gs.board.length < cur.board.length
        · exact Or.inl h1
        rw [if_neg h1] at h
        by_cases h2 : gs.pot < qmul cur.pot (mkRat 1 2)
        · refine Or.inr (Or.inl ?_)
          rw [qmul_eq, mkRat_half_eq] at h2
          exact h2
        rw [if_neg h2] at h
        by_cases h3 : ((!gs.hole_cards.isEmpty) && (!cur.hole_cards.isEmpty)
            && !(sameSet gs.hole_cards cur.hole_cards)) = true
        · refine Or.inr (Or.inr ?_)
          simp only [Bool.and_eq_true, Bool.not_eq_true', List.isEmpty_eq_false] at h3
          obtain ⟨⟨ha, hb⟩, hss⟩ := h3
          refine ⟨ha, hb, fun hall => ?_⟩
          rw [(sameSet_iff gs.hole_cards cur.hole_cards).mpr hall] at hss
          cases hss
        · rw [if_neg h3] at h
          cases h
      · rintro ⟨cur2, hcur2, hrule⟩
        subst hcur2
        by_cases h1 : gs.board.length < cur.board.length
        · rw [if_pos h1]
        · rw [if_neg h1]
          rcases hrule with hr | hr | ⟨ha, hb, hc⟩
          · exact absurd hr h1
          · rw [if_pos (show gs.pot < qmul cur.pot (mkRat 1 2) from by
              rw [qmul_eq, mkRat_half_eq]; exact hr)]
          · by_cases h2 : gs.pot < qmul cur.pot (mkRat 1 2)
            · rw [if_pos h2]
            · rw [if_neg h2]
              have hss : sameSet gs.hole_cards cur.hole_cards = false := by
                rw [← Bool.not_eq_true]
                exact fun hx => hc ((sameSet_iff _ _).mp hx)
              rw [if_pos (show ((!gs.hole_cards.isEmpty) && (!cur.hole_cards.isEmpty)
                  && !(sameSet gs.hole_cards cur.hole_cards)) = true from by
                rw [isEmpty_eq_false_of_ne_nil ha, isEmpty_eq_false_of_ne_nil hb, hss]
                rfl)]
  · intro hacc hmk hnew
    unfold GameStateManager.process_vision_output
    dsimp only
    rw [hacc]
    rw [if_neg (show ¬ ¬ (true = true) from by simp)]
    rw [hmk]
    dsimp only
    have hnew2 : GameStateManager.is_new_hand
        { m with validator := (m.validator.validate vision_data).2 } gs = true := hnew
    rw [if_pos hnew2]
    exact ⟨rfl, rfl⟩

theorem C4_episode_boundaries_witness :
    ((GameStateManager.init default_threshold "sess").process_vision_output
        (demo_board_obs [])).2.hand_number = 1 ∧
    ((GameStateManager.init default_threshold "sess").process_vision_output
        (demo_board_obs [])).2.validator.state_buffer = [] :=
  (C4_episode_boundaries (GameStateManager.init default_threshold "sess")
    (demo_board_obs []) demo_gs).2.1 (by decide) (by decide) (by decide)
